import Mathlib

/-!
Verification development for the ADA-RVT-TOOLS pyRevit extension.

Each pushbutton script is shallowly embedded: pure fragments become Lean
functions, stateful loops become folds over explicit state, Revit API calls
that may throw are modelled by explicit outcome fields on the input data,
and Python floats are embedded as exact rationals.  Host-supplied data
(documents, elements, parameters, exception messages, environment values
such as the user profile directory) are inputs of the embedded functions.
-/

/-! ## String helpers (substring test and ASCII lowercasing, used by the
exception handlers and the parameter-name scan) -/

/-- Boolean test that the first character list is an initial segment of the
second one. -/
def charsStart : List Char → List Char → Bool
  | [], _ => true
  | _ :: _, [] => false
  | p :: ps, c :: cs => p = c && charsStart ps cs

/-- Boolean test that the pattern occurs as a contiguous run inside the
text, mirroring the Python `in` operator on strings. -/
def charsHasRun : List Char → List Char → Bool
  | pat, [] => pat.isEmpty
  | pat, c :: cs => charsStart pat (c :: cs) || charsHasRun pat cs

/-- Embedding of the Python substring test `sub in s`. -/
def strContains (s sub : String) : Bool :=
  charsHasRun sub.data s.data

/-- Embedding of Python `s.lower()` (characterwise lowering suffices for the
ASCII marker strings these scripts match on). -/
def strToLower (s : String) : String :=
  String.mk (s.data.map Char.toLower)

/-! ## CSV destination paths (claims C1 and C7)

Sources:
`Audit.panel/Audit1.stack/GeoLoc.pushbutton/script.py`, `export_to_csv`;
`Audit.panel/Audit4.stack/Phases.pushbutton/script.py`, module body;
`Audit.panel/Audit3.stack/ImportLinePatterns.pushbutton/script.py`, `main`.
-/

/-- The hardcoded folder root shared by the audit scripts, exactly the raw
string literal in the sources (it ends with a path separator, the format
placeholder appends the document title). -/
def fixedOutputRoot : String :=
  "C:\\Users\\adavidson\\OneDrive - BESIX\\ADA BESIX\\Audit Model\\TESTING UCB\\00 Model Checker\\"

/-- Embedding of `os.path.join` for the concrete uses in these scripts: the
folder never ends with a separator at the call sites, so join inserts one
backslash. -/
def joinPath (folder name : String) : String :=
  folder ++ "\\" ++ name

/-- Output folder of the GeoLoc script: `output_folder` in `export_to_csv`.
The script has no fallback: `os.makedirs` sits outside the try block, so a
failure there propagates and nothing is written elsewhere. -/
def geoLocOutputFolder (title : String) : String :=
  fixedOutputRoot ++ title

/-- Full CSV path written by the GeoLoc script (`filepath_detailed`). -/
def geoLocFilepath (title : String) : String :=
  joinPath (geoLocOutputFolder title) "GeoLoc_Audit.csv"

/-- Output folder of the Phases script.  `homeDir` is the expansion of `~`
by `os.path.expanduser`, an environment-derived value; `folderExists` is
the result of `os.path.exists` on the hardcoded folder and `makedirsOk`
tells whether `os.makedirs` succeeds.  On a creation failure the script
falls back to the Desktop of the current user profile. -/
def phasesOutputFolder (title homeDir : String)
    (folderExists makedirsOk : Bool) : String :=
  if folderExists then fixedOutputRoot ++ title
  else if makedirsOk then fixedOutputRoot ++ title
  else homeDir ++ "\\Desktop"

/-- Full CSV path written by the Phases script (`filepath_detailed`). -/
def phasesFilepath (title homeDir : String)
    (folderExists makedirsOk : Bool) : String :=
  joinPath (phasesOutputFolder title homeDir folderExists makedirsOk)
    "Phases_Audit.csv"

/-- Export-format options offered by the line-patterns audit script. -/
inductive LPExportChoice
  | txtFile
  | csvFile
  | both
  | noExport
deriving DecidableEq

/-- Embedding of Python `s.rsplit(".", 1)[0]` on character lists: drop the
last dot and everything after it, keep the whole string when no dot
occurs.  Returns `some front` when a dot was found. -/
def rsplitDotAux : List Char → Option (List Char)
  | [] => none
  | c :: r =>
    match rsplitDotAux r with
    | some front => some (c :: front)
    | none => if c = '.' then some [] else none

/-- Embedding of `save_dialog.FileName.rsplit(".", 1)[0]`. -/
def rsplitDotBase (s : String) : String :=
  match rsplitDotAux s.data with
  | some front => String.mk front
  | none => s

/-- CSV destination of the line-patterns audit script: the user picks an
export format, then a `SaveFileDialog` supplies `fileName`; `dialogOk`
records whether the dialog returned OK.  `none` means no CSV is written. -/
def linePatternsCsvTarget (choice : LPExportChoice) (dialogOk : Bool)
    (fileName : String) : Option String :=
  match choice with
  | .noExport => none
  | .txtFile => none
  | .csvFile => if dialogOk then some fileName else none
  | .both => if dialogOk then some (rsplitDotBase fileName ++ ".csv") else none

/-! ## Unit conversion (claim C9)

Sources: `Coordinates.panel/Coordinates.pushbutton/script.py` and
`Audit.panel/Audit1.stack/GeoLoc.pushbutton/script.py`, `CONVERSION_FACTORS`
and `convert_value` (the two scripts contain the same definitions).  Float
literals are embedded as exact rationals. -/

/-- Embedding of the `CONVERSION_FACTORS` dict of the Coordinates script;
`none` models a key error. -/
def coordConversionFactors (unit : String) : Option ℚ :=
  if unit = "Feet" then some 1
  else if unit = "Meters" then some (3048 / 10000)
  else if unit = "Centimeters" then some (3048 / 100)
  else if unit = "Millimeters" then some (3048 / 10)
  else none

/-- Embedding of `convert_value` from the Coordinates script.  The `None`
test precedes the dict lookup, so a `None` value never raises; a missing
unit key raises `KeyError`, modelled by `Except.error`. -/
def coordConvertValue (value : Option ℚ) (unit : String) :
    Except Unit (Option ℚ) :=
  match value with
  | none => Except.ok none
  | some v =>
    match coordConversionFactors unit with
    | some f => Except.ok (some (v * f))
    | none => Except.error ()

/-- Embedding of the `CONVERSION_FACTORS` dict of the GeoLoc script
(textually identical to the Coordinates one). -/
def geoLocConversionFactors (unit : String) : Option ℚ :=
  if unit = "Feet" then some 1
  else if unit = "Meters" then some (3048 / 10000)
  else if unit = "Centimeters" then some (3048 / 100)
  else if unit = "Millimeters" then some (3048 / 10)
  else none

/-- Embedding of `convert_value` from the GeoLoc script. -/
def geoLocConvertValue (value : Option ℚ) (unit : String) :
    Except Unit (Option ℚ) :=
  match value with
  | none => Except.ok none
  | some v =>
    match geoLocConversionFactors unit with
    | some f => Except.ok (some (v * f))
    | none => Except.error ()

/-! ## Exception handlers for selection cancellation (claim C2)

Sources: `07.Openings Testing.Panel/Openings.pushbutton/script.py`, the
except handler around the element pick, and
`Coordination.panel/Object Intersection.pushbutton/script.py`, the except
handler at the end of `main`. -/

/-- What the Openings handler prints: a fixed cancellation line or the
generic error line that carries `str(e)`. -/
inductive OpeningsOut
  | canceledMsg
  | errorMsg (e : String)
deriving DecidableEq

/-- Rendering of `OpeningsOut` as the exact markdown the handler prints. -/
def openingsOutText : OpeningsOut → String
  | .canceledMsg => "**Selection was canceled by user**"
  | .errorMsg e => "**Error:** " ++ e

/-- Embedding of the Openings except handler: branches on the literal test
`if 'Canceled' in str(e)`. -/
def openingsHandler (e : String) : OpeningsOut :=
  if strContains e "Canceled" then .canceledMsg else .errorMsg e

/-- Embedding of the Object Intersection except handler: it shows an alert
only when the test `'cancel' not in str(e).lower()` passes, and shows
nothing at all in the cancellation case.  `tb` is the formatted traceback.
The result is the alert text, `none` when nothing is displayed. -/
def objIntersectionHandler (e tb : String) : Option String :=
  if strContains (strToLower e) "cancel" then none
  else some ("Error: " ++ e ++ "\n\nFull Traceback:\n" ++ tb)

/-! ## MEP insulation thickness fallback chain (claim C4)

Source: `Coordination.panel/Object Intersection.pushbutton/script.py`,
`get_mep_insulation_thickness`.  The four access methods are modelled by
outcome fields on the element: each `hasX` flag is the Python `hasattr`
test, each `raises` flag tells whether the guarded API access throws (the
surrounding try/except then moves on to the next method). -/

/-- One entry of `mep_element.Parameters` as seen by the scan loop of
method 3.  `raises` means accessing the parameter throws, which aborts the
whole scan (the except around the loop catches it). -/
structure ScanParam where
  raises : Bool
  name : String
  storageIsDouble : Bool
  value : ℚ
deriving DecidableEq

/-- The MEP element as observed by `get_mep_insulation_thickness`. -/
structure MEPElement where
  hasInsulationThicknessProp : Bool
  propRaises : Bool
  propValue : ℚ
  hasGetParameter : Bool
  rbsRaises : Bool
  rbsParam : Option ℚ
  hasParameters : Bool
  params : List ScanParam
  hasInsulationType : Bool
  insTypeRaises : Bool
  insTypeParam : Option (Option ℚ)
deriving DecidableEq

/-- Method 1: the `InsulationThickness` property; the Python guard
`if thickness and thickness > 0` accepts exactly the strictly positive
values. -/
def insMethod1 (e : MEPElement) : Option ℚ :=
  if e.hasInsulationThicknessProp && !e.propRaises && decide (0 < e.propValue)
  then some e.propValue else none

/-- Method 2: the `RBS_INSULATION_THICKNESS` built-in parameter, accepted
when the parameter exists and `AsDouble()` is strictly positive. -/
def insMethod2 (e : MEPElement) : Option ℚ :=
  if e.hasGetParameter && !e.rbsRaises then
    match e.rbsParam with
    | some v => if decide (0 < v) then some v else none
    | none => none
  else none

/-- Scan loop of method 3: walk the parameters in order, abort on a raising
entry, return the first parameter whose lowered name contains both marker
words, whose storage type is Double and whose value is strictly positive. -/
def insScan : List ScanParam → Option ℚ
  | [] => none
  | p :: ps =>
    if p.raises then none
    else if strContains (strToLower p.name) "insulation"
        && strContains (strToLower p.name) "thickness"
        && p.storageIsDouble && decide (0 < p.value)
    then some p.value
    else insScan ps

/-- Method 3: the parameter-name scan, guarded by `hasattr(mep_element,
'Parameters')`. -/
def insMethod3 (e : MEPElement) : Option ℚ :=
  if e.hasParameters then insScan e.params else none

/-- Method 4: the insulation type.  `insTypeParam = some p` models an
`InsulationType` that is set and has a valid id, with `p` the
`RBS_INSULATION_THICKNESS` parameter of the type (`none` when that
parameter is null). -/
def insMethod4 (e : MEPElement) : Option ℚ :=
  if e.hasInsulationType && !e.insTypeRaises then
    match e.insTypeParam with
    | some (some v) => if decide (0 < v) then some v else none
    | some none => none
    | none => none
  else none

/-- Embedding of `get_mep_insulation_thickness`: the four methods in source
order, each returning early on a strictly positive hit; the final
`return insulation_thickness` returns the initial 0.0 because the local is
only ever assigned immediately before an early return. -/
def getMepInsulationThickness (e : MEPElement) : ℚ :=
  match insMethod1 e with
  | some v => v
  | none =>
    match insMethod2 e with
    | some v => v
    | none =>
      match insMethod3 e with
      | some v => v
      | none =>
        match insMethod4 e with
        | some v => v
        | none => 0

/-! ## Workset element deletion loop (claims C3, C6, C10)

Source: `Workset.panel/Workset.pushbutton/script.py`, the loop
`for element in all_elements` between `t.Start()` and `t.Commit()`.  Each
collected element is modelled by the outcomes the loop can observe on it;
`id` stands for `element.Id`. -/

/-- One element of `all_elements` as observed by the deletion loop.
`isNull` covers `element is None or not element.IsValidObject`;
`catRaises` means reading `element.Category.Name` throws (caught by the
outer except); `category = none` models a null `Category`, printed as
"No Category"; `pinChkRaises` means the guarded pin lookup throws (the
inner except then falls through to the deletion attempt); `hasPinParam`
is the `HasParameter` / non-null parameter test and `pinned` the
`AsInteger() == 1` result; `canBeDelRaises` makes the loop assume
deletability; `delRaises` means `doc.Delete` itself throws. -/
structure WElem where
  id : Nat
  isNull : Bool
  catRaises : Bool
  category : Option String
  pinChkRaises : Bool
  hasPinParam : Bool
  pinned : Bool
  canBeDelRaises : Bool
  canBeDel : Bool
  delRaises : Bool
deriving DecidableEq

/-- Category name as computed by the loop:
`element.Category.Name if element.Category else "No Category"`. -/
def wCatName (e : WElem) : String :=
  e.category.getD "No Category"

/-- The literal protected-category list of the script. -/
def protectedCategories : List String :=
  ["Levels", "Grids", "Views", "View Templates", "Viewports", "Sheets"]

/-- The pin check succeeds and reports a pinned element, which the loop
then skips. -/
def wPinnedSkip (e : WElem) : Bool :=
  !e.pinChkRaises && e.hasPinParam && e.pinned

/-- The element reaches the `doc.Delete(element.Id)` call: it passed the
null, category, pin and protected-category guards and the `can_delete`
test (which defaults to true when `CanBeDeleted` throws). -/
def wAttempted (e : WElem) : Bool :=
  !e.isNull && !e.catRaises && !wPinnedSkip e
    && !(protectedCategories.contains (wCatName e))
    && (e.canBeDelRaises || e.canBeDel)

/-- The `doc.Delete` call is reached and succeeds. -/
def wDeleted (e : WElem) : Bool :=
  wAttempted e && !e.delRaises

/-- An exception escapes the per-element body into one of its except
clauses: the category read throws, or the delete attempt throws. -/
def wRaisesDuring (e : WElem) : Bool :=
  (!e.isNull && e.catRaises) || (wAttempted e && e.delRaises)

/-- Loop state: the two counters of the script plus the ids successfully
deleted and the elements passed to `doc.Delete`, in order. -/
structure WState where
  deletedCount : Nat
  nonDeletableCount : Nat
  deletedIds : List Nat
  attempted : List WElem
deriving DecidableEq

/-- One iteration of the deletion loop in source order: null guard,
category read, pin check, protected categories, deletability test,
deletion attempt.  Every non-deleting branch increments
`non_deletable_count`. -/
def worksetStep (st : WState) (e : WElem) : WState :=
  if e.isNull then
    { st with nonDeletableCount := st.nonDeletableCount + 1 }
  else if e.catRaises then
    { st with nonDeletableCount := st.nonDeletableCount + 1 }
  else if wPinnedSkip e then
    { st with nonDeletableCount := st.nonDeletableCount + 1 }
  else if protectedCategories.contains (wCatName e) then
    { st with nonDeletableCount := st.nonDeletableCount + 1 }
  else if e.canBeDelRaises || e.canBeDel then
    if e.delRaises then
      { st with nonDeletableCount := st.nonDeletableCount + 1,
                attempted := st.attempted ++ [e] }
    else
      { st with deletedCount := st.deletedCount + 1,
                deletedIds := st.deletedIds ++ [e.id],
                attempted := st.attempted ++ [e] }
  else
    { st with nonDeletableCount := st.nonDeletableCount + 1 }

/-- The loop run from an arbitrary starting state. -/
def worksetRunFrom (st : WState) (es : List WElem) : WState :=
  es.foldl worksetStep st

/-- The full run, from the zeroed counters the script starts with. -/
def worksetRun (es : List WElem) : WState :=
  worksetRunFrom ⟨0, 0, [], []⟩ es

/-! ## Phases audit counting and CSV rows (claims C3 and C5)

Source: `Audit.panel/Audit4.stack/Phases.pushbutton/script.py`.  The
`defaultdict(lambda: defaultdict(int))` counters are represented by the
list of their increment events: one `(phase id, category name)` pair per
counted element, so a dict entry is the number of its occurrences and the
dict keys are the names that occur.  Phase ids are `Nat`. -/

/-- One collected element as seen by the counting loop: the resolved
`PHASE_CREATED` and `PHASE_DEMOLISHED` ids, where `none` stands for
`InvalidElementId` (also returned when the parameter is missing or the
read throws, by `get_element_phase_created` / `_demolished`). -/
structure PhElement where
  phaseCreated : Option Nat
  phaseDemolished : Option Nat
deriving DecidableEq

/-- One entry of `MODEL_CATEGORIES` together with what its collector
returns.  `raises` models the per-category try: the collector chain is
the only raise point inside it and fires before any element is counted.
`name` is `get_category_name` for this category. -/
structure PhCategory where
  raises : Bool
  name : String
  elements : List PhElement
deriving DecidableEq

/-- Increments recorded in `phase_created_data` by one category. -/
def createdOccOfCat (c : PhCategory) : List (Nat × String) :=
  if c.raises then []
  else c.elements.filterMap fun e => e.phaseCreated.map fun p => (p, c.name)

/-- Increments recorded in `phase_demolished_data` by one category. -/
def demolOccOfCat (c : PhCategory) : List (Nat × String) :=
  if c.raises then []
  else c.elements.filterMap fun e => e.phaseDemolished.map fun p => (p, c.name)

/-- All increments of `phase_created_data` over the category loop. -/
def createdOcc (cats : List PhCategory) : List (Nat × String) :=
  cats.flatMap createdOccOfCat

/-- All increments of `phase_demolished_data` over the category loop. -/
def demolOcc (cats : List PhCategory) : List (Nat × String) :=
  cats.flatMap demolOccOfCat

/-- Value of `phase_created_data[pid].get(cat, 0)`. -/
def createdCount (cats : List PhCategory) (pid : Nat) (cat : String) : Nat :=
  (createdOcc cats).count (pid, cat)

/-- Value of `phase_demolished_data[pid].get(cat, 0)`. -/
def demolCount (cats : List PhCategory) (pid : Nat) (cat : String) : Nat :=
  (demolOcc cats).count (pid, cat)

/-- Insertion into a string list sorted by the character order, embedding
the `sorted()` call on category names. -/
def insertSorted (s : String) : List String → List String
  | [] => [s]
  | t :: r => if s < t then s :: t :: r else t :: insertSorted s r

/-- Insertion sort on strings. -/
def sortStrings : List String → List String
  | [] => []
  | s :: r => insertSorted s (sortStrings r)

/-- The `phase_categories` computed for one phase: the distinct category
names keyed under this phase in either counter, sorted. -/
def phaseCategories (cats : List PhCategory) (pid : Nat) : List String :=
  sortStrings
    ((((createdOcc cats).filter fun o => o.1 == pid).map Prod.snd
      ++ ((demolOcc cats).filter fun o => o.1 == pid).map Prod.snd).dedup)

/-- One CSV row of `csv_data`, with the five fields of the writer. -/
structure PhRow where
  phaseName : String
  catCreated : String
  countCreated : Nat
  catDemolished : String
  countDemolished : Nat
deriving DecidableEq

/-- Rows contributed by one phase: a single zero row when the phase keys
no counter entry, else one row per sorted category name, blanking each
category field when its count is zero, exactly as the row literals in the
script. -/
def rowsForPhase (cats : List PhCategory) (pid : Nat) (pname : String) :
    List PhRow :=
  let pcs := phaseCategories cats pid
  if pcs.isEmpty then
    [⟨pname, "", 0, "", 0⟩]
  else
    pcs.map fun cat =>
      let cc := createdCount cats pid cat
      let dc := demolCount cats pid cat
      ⟨pname, if 0 < cc then cat else "", cc,
              if 0 < dc then cat else "", dc⟩

/-- The whole `csv_data` list over the sorted phase list (id and name per
phase). -/
def phasesCsvData (cats : List PhCategory) (phases : List (Nat × String)) :
    List PhRow :=
  phases.flatMap fun p => rowsForPhase cats p.1 p.2

/-- Specification-side count, written directly from the words of claim C5:
the number of elements collected from the model categories whose
`PHASE_CREATED` resolves to `pid` and whose category name is `cat`. -/
def specCreatedCount (cats : List PhCategory) (pid : Nat) (cat : String) :
    Nat :=
  ((cats.filter fun c => !c.raises).map fun c =>
    if c.name = cat then
      (c.elements.filter fun e => e.phaseCreated == some pid).length
    else 0).sum

/-- Specification-side count over `PHASE_DEMOLISHED`. -/
def specDemolCount (cats : List PhCategory) (pid : Nat) (cat : String) :
    Nat :=
  ((cats.filter fun c => !c.raises).map fun c =>
    if c.name = cat then
      (c.elements.filter fun e => e.phaseDemolished == some pid).length
    else 0).sum

/-- Total number of counted created elements for one phase, over all
category names. -/
def specCreatedTotal (cats : List PhCategory) (pid : Nat) : Nat :=
  ((cats.filter fun c => !c.raises).map fun c =>
    (c.elements.filter fun e => e.phaseCreated == some pid).length).sum

/-- Total number of counted demolished elements for one phase. -/
def specDemolTotal (cats : List PhCategory) (pid : Nat) : Nat :=
  ((cats.filter fun c => !c.raises).map fun c =>
    (c.elements.filter fun e => e.phaseDemolished == some pid).length).sum

/-! ## Transaction event traces (claim C6)

Event-level embedding of the scripts that open a Revit transaction
(`Workset.panel/Workset.pushbutton/script.py` and
`Place X views on 1 Sheet.Panel/AddViews.pushbutton/script.py`) and of
the read-only Phases audit.  `mutate` marks a successful model mutation
(`doc.Delete`, `Viewport.Create`); `note` marks console or dialog
output. -/

/-- Observable events of a script run. -/
inductive REv
  | txStart
  | txCommit
  | txRollBack
  | mutate (id : Nat)
  | note (s : String)
deriving DecidableEq

/-- Transaction lifecycle events. -/
def isTxEvent : REv → Bool
  | .txStart => true
  | .txCommit => true
  | .txRollBack => true
  | _ => false

/-- Scan for the bracketing property: every `mutate` happens while a
transaction is open (after a `Start`, before the next `Commit` or
`RollBack`).  The flag is the open state. -/
def mutOpenGo : Bool → List REv → Bool
  | _, [] => true
  | _, REv.txStart :: r => mutOpenGo true r
  | _, REv.txCommit :: r => mutOpenGo false r
  | _, REv.txRollBack :: r => mutOpenGo false r
  | o, REv.mutate _ :: r => o && mutOpenGo o r
  | o, REv.note _ :: r => mutOpenGo o r

/-- Every mutation in the trace happens inside an open transaction. -/
def mutationsWhileOpen (tr : List REv) : Bool :=
  mutOpenGo false tr

/-- Scan for the stronger property claim C6 states: every mutation is
covered by a `Start` and a following `Commit` of the same transaction.
The second flag records mutations pending since the last `Start`; a
`RollBack` or the end of the trace with pending mutations refutes the
property, as does a mutation outside an open transaction. -/
def commGo : Bool → Bool → List REv → Bool
  | _, p, [] => !p
  | _, p, REv.txStart :: r => commGo true p r
  | _, _, REv.txCommit :: r => commGo false false r
  | _, p, REv.txRollBack :: r => !p && commGo false false r
  | o, _, REv.mutate _ :: r => o && commGo o true r
  | o, p, REv.note _ :: r => commGo o p r

/-- Every mutation sits between a `Start` and its `Commit`. -/
def mutationsCommitted (tr : List REv) : Bool :=
  commGo false false tr

/-- Events of one iteration of the workset deletion loop: a mutation
exactly when the `doc.Delete` call succeeds. -/
def worksetElemEvents (e : WElem) : List REv :=
  if wDeleted e then [REv.mutate e.id] else []

/-- Trace of the workset script: reporting, `t.Start()`, the deletion
loop, the unconditional `t.Commit()`, then the results report. -/
def worksetTrace (es : List WElem) : List REv :=
  [REv.note "# Workset Element Deletion", REv.txStart]
    ++ es.flatMap worksetElemEvents
    ++ [REv.txCommit, REv.note "## Deletion Results:"]

/-- One view as observed by the AddViews placement loop:
`canAdd` is `Viewport.CanAddViewToSheet` and `createRaises` tells whether
`Viewport.Create` throws for it. -/
structure AVView where
  id : Nat
  canAdd : Bool
  createRaises : Bool
deriving DecidableEq

/-- The placement loop of the AddViews script after `t.Start()`: skipped
views print a warning, a throwing `Viewport.Create` jumps to the except
clause which calls `t.RollBack()`, and a completed loop reaches
`t.Commit()`. -/
def addViewsGo : List AVView → List REv
  | [] => [REv.txCommit, REv.note "# Success!"]
  | v :: r =>
    if !v.canAdd then REv.note "Warning: Skipping view" :: addViewsGo r
    else if v.createRaises then
      [REv.txRollBack, REv.note "# Failed to add views to sheet"]
    else REv.mutate v.id :: addViewsGo r

/-- Trace of the AddViews script from `t.Start()` on. -/
def addViewsTrace (vs : List AVView) : List REv :=
  REv.txStart :: addViewsGo vs

/-- Trace of the read-only Phases audit: console reporting and the CSV
path message only, no transaction is ever constructed. -/
def phasesTrace (_cats : List PhCategory) (phases : List (Nat × String))
    (path : String) : List REv :=
  [REv.note "## Collecting Elements...", REv.note "---",
   REv.note "## CSV Export Successful!", REv.note path,
   REv.note "# Model Elements Count by Phase"]
    ++ phases.map fun p => REv.note p.2

/-- A collected workset element that is pinned but whose guarded pin
lookup throws, as the inner except of the deletion loop allows: the loop
then falls through to the deletion attempt. -/
def pinnedCheckRaisesDemo : WElem :=
  ⟨7, false, false, some "Walls", true, true, true, false, true, false⟩

/-! ## Theorems -/

/-- C9: unit conversion in the coordinates scripts is the fixed
multiplicative map of the `CONVERSION_FACTORS` table with `None`
propagation and identity on Feet, and the GeoLoc copy agrees with the
Coordinates one. -/
theorem C9_convert_value_table (v : ℚ) (u : String) :
    coordConvertValue none u = Except.ok none
  ∧ geoLocConvertValue none u = Except.ok none
  ∧ coordConvertValue (some v) "Feet" = Except.ok (some v)
  ∧ coordConvertValue (some v) "Meters" = Except.ok (some (v * (3048 / 10000)))
  ∧ coordConvertValue (some v) "Centimeters" = Except.ok (some (v * (3048 / 100)))
  ∧ coordConvertValue (some v) "Millimeters" = Except.ok (some (v * (3048 / 10)))
  ∧ coordConvertValue (some v) u = geoLocConvertValue (some v) u := by
  refine ⟨rfl, rfl, ?_, ?_, ?_, ?_, rfl⟩ <;>
    simp [coordConvertValue, coordConversionFactors]

/-- C2 counterexample: an exception message that carries the cancellation
marker makes the Object Intersection handler display nothing at all, while
the claim says a cancellation message is printed in that case. -/
theorem C2_counterexample :
    strContains (strToLower "Operation canceled by user") "cancel" = true
  ∧ objIntersectionHandler "Operation canceled by user" "tb" = none := by
  constructor
  · decide
  · decide

/-- C2 amended: both handlers detect cancellation exactly by the marker
substring test on `str(e)`; the Openings handler prints the cancellation
line in that case and the generic error text otherwise, while the Object
Intersection handler suppresses its alert entirely on cancellation and
shows the generic error alert otherwise. -/
theorem C2_cancel_detection (e tb : String) :
    (openingsHandler e = OpeningsOut.canceledMsg
      ↔ strContains e "Canceled" = true)
  ∧ (openingsHandler e = OpeningsOut.errorMsg e
      ↔ strContains e "Canceled" = false)
  ∧ (objIntersectionHandler e tb = none
      ↔ strContains (strToLower e) "cancel" = true)
  ∧ (objIntersectionHandler e tb
        = some ("Error: " ++ e ++ "\n\nFull Traceback:\n" ++ tb)
      ↔ strContains (strToLower e) "cancel" = false) := by
  refine ⟨?_, ?_, ?_, ?_⟩
  · cases h : strContains e "Canceled" <;> simp [openingsHandler, h]
  · cases h : strContains e "Canceled" <;> simp [openingsHandler, h]
  · cases h : strContains (strToLower e) "cancel" <;>
      simp [objIntersectionHandler, h]
  · cases h : strContains (strToLower e) "cancel" <;>
      simp [objIntersectionHandler, h]

/-- C1 counterexample: when the hardcoded folder is missing and cannot be
created, the Phases audit writes its CSV under the Desktop of the current
user profile, not under the fixed prefix; and the line-patterns audit
writes its CSV to whatever path the user picks in the save dialog. -/
theorem C1_counterexample :
    phasesFilepath "Tower" "C:\\Users\\bob" false false
      = "C:\\Users\\bob\\Desktop\\Phases_Audit.csv"
  ∧ ((phasesFilepath "Tower" "C:\\Users\\bob" false false)
      == (fixedOutputRoot ++ "Tower" ++ "\\Phases_Audit.csv")) = false
  ∧ linePatternsCsvTarget LPExportChoice.csvFile true "D:\\LinePatterns.csv"
      = some "D:\\LinePatterns.csv" := by
  refine ⟨?_, ?_, rfl⟩
  · decide
  · decide

/-- C1 amended: the GeoLoc audit always writes to the fixed prefix joined
with the document title, and the Phases audit does so whenever the
hardcoded folder exists or its creation succeeds; only a folder-creation
failure (Desktop fallback) or the save dialog of the line-patterns audit
moves the destination. -/
theorem C1_audit_csv_paths (title homeDir : String) (makedirsOk : Bool) :
    geoLocFilepath title = fixedOutputRoot ++ title ++ "\\GeoLoc_Audit.csv"
  ∧ phasesFilepath title homeDir true makedirsOk
      = fixedOutputRoot ++ title ++ "\\Phases_Audit.csv"
  ∧ phasesFilepath title homeDir false true
      = fixedOutputRoot ++ title ++ "\\Phases_Audit.csv"
  ∧ linePatternsCsvTarget LPExportChoice.csvFile true title = some title := by
  refine ⟨?_, ?_, ?_, rfl⟩
  · show (fixedOutputRoot ++ title) ++ "\\" ++ "GeoLoc_Audit.csv" = _
    rw [String.append_assoc, String.append_assoc,
      show ("\\" : String) ++ "GeoLoc_Audit.csv" = "\\GeoLoc_Audit.csv" from rfl,
      ← String.append_assoc]
  · show (fixedOutputRoot ++ title) ++ "\\" ++ "Phases_Audit.csv" = _
    rw [String.append_assoc, String.append_assoc,
      show ("\\" : String) ++ "Phases_Audit.csv" = "\\Phases_Audit.csv" from rfl,
      ← String.append_assoc]
  · show (fixedOutputRoot ++ title) ++ "\\" ++ "Phases_Audit.csv" = _
    rw [String.append_assoc, String.append_assoc,
      show ("\\" : String) ++ "Phases_Audit.csv" = "\\Phases_Audit.csv" from rfl,
      ← String.append_assoc]

/-- C7 counterexample: with the hardcoded folder unavailable, two runs of
the Phases audit on the same document and inputs but under different user
profiles write their CSV to different paths. -/
theorem C7_counterexample :
    phasesFilepath "Tower" "C:\\Users\\alice" false false
      = "C:\\Users\\alice\\Desktop\\Phases_Audit.csv"
  ∧ ((phasesFilepath "Tower" "C:\\Users\\alice" false false)
      == (phasesFilepath "Tower" "C:\\Users\\bob" false false)) = false := by
  constructor
  · decide
  · decide

/-- C7 amended: the scripts consult no configuration and touch the
environment only through the error fallback of the audit CSV export; as
long as the hardcoded folder exists or is created successfully, the Phases
CSV path is identical across arbitrary environments. -/
theorem C7_env_independence (title h1 h2 : String) (makedirsOk : Bool) :
    phasesFilepath title h1 true makedirsOk
      = phasesFilepath title h2 true makedirsOk
  ∧ phasesFilepath title h1 false true = phasesFilepath title h2 false true := by
  constructor <;> simp [phasesFilepath, phasesOutputFolder]

/-- Any hit of method 1 is strictly positive. -/
lemma insMethod1_pos (e : MEPElement) (v : ℚ) (h : insMethod1 e = some v) :
    0 < v := by
  unfold insMethod1 at h
  split at h
  · rename_i hc
    simp only [Bool.and_eq_true, decide_eq_true_eq] at hc
    cases h
    exact hc.2
  · cases h

/-- Any hit of method 2 is strictly positive. -/
lemma insMethod2_pos (e : MEPElement) (v : ℚ) (h : insMethod2 e = some v) :
    0 < v := by
  unfold insMethod2 at h
  split at h
  · split at h
    · split at h
      · rename_i hw
        cases h
        exact of_decide_eq_true hw
      · cases h
    · cases h
  · cases h

/-- Any hit of the parameter scan is strictly positive. -/
lemma insScan_pos : ∀ (l : List ScanParam) (v : ℚ), insScan l = some v → 0 < v := by
  intro l
  induction l with
  | nil => intro v h; cases h
  | cons p ps ih =>
    intro v h
    unfold insScan at h
    split at h
    · cases h
    · split at h
      · rename_i hc
        simp only [Bool.and_eq_true, decide_eq_true_eq] at hc
        cases h
        exact hc.2
      · exact ih v h

/-- Any hit of method 3 is strictly positive. -/
lemma insMethod3_pos (e : MEPElement) (v : ℚ) (h : insMethod3 e = some v) :
    0 < v := by
  unfold insMethod3 at h
  split at h
  · exact insScan_pos e.params v h
  · cases h

/-- Any hit of method 4 is strictly positive. -/
lemma insMethod4_pos (e : MEPElement) (v : ℚ) (h : insMethod4 e = some v) :
    0 < v := by
  unfold insMethod4 at h
  split at h
  · split at h
    · split at h
      · rename_i hw
        cases h
        exact of_decide_eq_true hw
      · cases h
    · cases h
    · cases h
  · cases h

/-- C4: `get_mep_insulation_thickness` returns the first strictly positive
value delivered by the four access methods in source order, returns 0.0
exactly when every method fails or raises, and never returns a negative
thickness. -/
theorem C4_insulation_fallback_chain (e : MEPElement) :
    getMepInsulationThickness e
      = (((insMethod1 e).orElse fun _ =>
           (insMethod2 e).orElse fun _ =>
             (insMethod3 e).orElse fun _ => insMethod4 e).getD 0)
  ∧ (getMepInsulationThickness e = 0
      ↔ insMethod1 e = none ∧ insMethod2 e = none
        ∧ insMethod3 e = none ∧ insMethod4 e = none)
  ∧ (getMepInsulationThickness e = 0 ∨ 0 < getMepInsulationThickness e) := by
  cases h1 : insMethod1 e with
  | some v =>
    have hv := insMethod1_pos e v h1
    refine ⟨?_, ?_, ?_⟩
    · simp [getMepInsulationThickness, h1, Option.orElse]
    · simp [getMepInsulationThickness, h1]
      intro h0
      exact absurd h0 (ne_of_gt hv)
    · right
      simpa [getMepInsulationThickness, h1] using hv
  | none =>
    cases h2 : insMethod2 e with
    | some v =>
      have hv := insMethod2_pos e v h2
      refine ⟨?_, ?_, ?_⟩
      · simp [getMepInsulationThickness, h1, h2, Option.orElse]
      · simp [getMepInsulationThickness, h1, h2]
        intro h0
        exact absurd h0 (ne_of_gt hv)
      · right
        simpa [getMepInsulationThickness, h1, h2] using hv
    | none =>
      cases h3 : insMethod3 e with
      | some v =>
        have hv := insMethod3_pos e v h3
        refine ⟨?_, ?_, ?_⟩
        · simp [getMepInsulationThickness, h1, h2, h3, Option.orElse]
        · simp [getMepInsulationThickness, h1, h2, h3]
          intro h0
          exact absurd h0 (ne_of_gt hv)
        · right
          simpa [getMepInsulationThickness, h1, h2, h3] using hv
      | none =>
        cases h4 : insMethod4 e with
        | some v =>
          have hv := insMethod4_pos e v h4
          refine ⟨?_, ?_, ?_⟩
          · simp [getMepInsulationThickness, h1, h2, h3, h4, Option.orElse]
          · simp [getMepInsulationThickness, h1, h2, h3, h4]
            intro h0
            exact absurd h0 (ne_of_gt hv)
          · right
            simpa [getMepInsulationThickness, h1, h2, h3, h4] using hv
        | none =>
          refine ⟨?_, ?_, ?_⟩
          · simp [getMepInsulationThickness, h1, h2, h3, h4, Option.orElse]
          · simp [getMepInsulationThickness, h1, h2, h3, h4]
          · left
            simp [getMepInsulationThickness, h1, h2, h3, h4]

/-- Each loop iteration increments exactly one of the two counters. -/
lemma worksetStep_counts (st : WState) (e : WElem) :
    (worksetStep st e).deletedCount + (worksetStep st e).nonDeletableCount
      = st.deletedCount + st.nonDeletableCount + 1 := by
  unfold worksetStep
  split_ifs <;> simp <;> omega

/-- Elements reach `doc.Delete` exactly when `wAttempted` holds. -/
lemma worksetStep_attempted (st : WState) (e : WElem) :
    (worksetStep st e).attempted
      = st.attempted ++ (if wAttempted e then [e] else []) := by
  unfold worksetStep wAttempted
  split_ifs with h1 h2 h3 h4 h5 h6 <;> simp_all

/-- Ids are recorded exactly for the successful deletions. -/
lemma worksetStep_deletedIds (st : WState) (e : WElem) :
    (worksetStep st e).deletedIds
      = st.deletedIds ++ (if wDeleted e then [e.id] else []) := by
  unfold worksetStep wDeleted wAttempted
  split_ifs with h1 h2 h3 h4 h5 h6 <;> simp_all

/-- Counter sum over a whole run. -/
lemma worksetRunFrom_counts :
    ∀ (es : List WElem) (st : WState),
      (worksetRunFrom st es).deletedCount
        + (worksetRunFrom st es).nonDeletableCount
      = st.deletedCount + st.nonDeletableCount + es.length := by
  intro es
  induction es with
  | nil => intro st; simp [worksetRunFrom]
  | cons e es ih =>
    intro st
    show (worksetRunFrom (worksetStep st e) es).deletedCount
        + (worksetRunFrom (worksetStep st e) es).nonDeletableCount = _
    rw [ih (worksetStep st e)]
    have := worksetStep_counts st e
    simp [List.length_cons]
    omega

/-- Attempted elements over a whole run are the filter by `wAttempted`. -/
lemma worksetRunFrom_attempted :
    ∀ (es : List WElem) (st : WState),
      (worksetRunFrom st es).attempted
        = st.attempted ++ es.filter wAttempted := by
  intro es
  induction es with
  | nil => intro st; simp [worksetRunFrom]
  | cons e es ih =>
    intro st
    show (worksetRunFrom (worksetStep st e) es).attempted = _
    rw [ih (worksetStep st e), worksetStep_attempted, List.filter_cons]
    cases h : wAttempted e <;> simp [h]

/-- Deleted ids over a whole run are the image of the filter by
`wDeleted`. -/
lemma worksetRunFrom_deletedIds :
    ∀ (es : List WElem) (st : WState),
      (worksetRunFrom st es).deletedIds
        = st.deletedIds ++ (es.filter wDeleted).map WElem.id := by
  intro es
  induction es with
  | nil => intro st; simp [worksetRunFrom]
  | cons e es ih =>
    intro st
    show (worksetRunFrom (worksetStep st e) es).deletedIds = _
    rw [ih (worksetStep st e), worksetStep_deletedIds, List.filter_cons]
    cases h : wDeleted e <;> simp [h]

/-- A successfully deleted element raised no exception on the way. -/
lemma wDeleted_no_raise (e : WElem) (h : wDeleted e = true) :
    wRaisesDuring e = false := by
  unfold wDeleted at h
  rw [Bool.and_eq_true] at h
  obtain ⟨ha, hd⟩ := h
  unfold wAttempted at ha
  simp only [Bool.and_eq_true, Bool.not_eq_true'] at ha hd
  unfold wRaisesDuring wAttempted
  simp [ha.1.1.1.1, ha.1.1.1.2, hd]

/-- C10 counterexample: a pinned element whose guarded pin lookup throws
falls through the pin check and is passed to `doc.Delete` (and here it is
deleted), so the stated invariant that no pinned element is ever passed to
`doc.Delete` fails on this input. -/
theorem C10_counterexample :
    pinnedCheckRaisesDemo.pinned = true
  ∧ (worksetRun [pinnedCheckRaisesDemo]).attempted = [pinnedCheckRaisesDemo]
  ∧ (worksetRun [pinnedCheckRaisesDemo]).deletedIds = [7] := by
  refine ⟨rfl, ?_, ?_⟩ <;> decide

/-- C10 amended: every element passed to `doc.Delete` is outside the
protected categories and was not reported pinned by a successful pin
check (a pinned element can still slip through when the pin lookup
throws), and every collected element increments exactly one counter, so
the two counters always sum to the number of collected elements. -/
theorem C10_deletion_loop_invariants (es : List WElem) :
    ((worksetRun es).attempted.all fun e =>
        !wPinnedSkip e && !(protectedCategories.contains (wCatName e))) = true
  ∧ (worksetRun es).deletedCount + (worksetRun es).nonDeletableCount
      = es.length := by
  constructor
  · rw [List.all_eq_true]
    intro x hx
    rw [worksetRun, worksetRunFrom_attempted] at hx
    simp only [List.nil_append] at hx
    have hatt := (List.mem_filter.mp hx).2
    unfold wAttempted at hatt
    simp only [Bool.and_eq_true] at hatt
    show (!wPinnedSkip x && !(protectedCategories.contains (wCatName x))) = true
    rw [Bool.and_eq_true]
    exact ⟨hatt.1.1.2, hatt.1.2⟩
  · have := worksetRunFrom_counts es ⟨0, 0, [], []⟩
    simpa [worksetRun] using this

/-- A raising category records no counter increments. -/
lemma createdOccOfCat_raises (c : PhCategory) (h : c.raises = true) :
    createdOccOfCat c = [] := by
  unfold createdOccOfCat
  simp [h]

/-- A raising category records no demolition increments either. -/
lemma demolOccOfCat_raises (c : PhCategory) (h : c.raises = true) :
    demolOccOfCat c = [] := by
  unfold demolOccOfCat
  simp [h]

/-- Categories whose per-category contribution is empty when they raise
can be dropped from the flat map. -/
lemma flatMap_skip_raises {α : Type} (f : PhCategory → List α)
    (hf : ∀ c, c.raises = true → f c = []) :
    ∀ cats : List PhCategory,
      cats.flatMap f = (cats.filter fun c => !c.raises).flatMap f := by
  intro cats
  induction cats with
  | nil => simp
  | cons c cs ih =>
    rw [List.flatMap_cons, List.filter_cons]
    cases h : c.raises
    · simp [List.flatMap_cons, ih]
    · simp [hf c h, ih]

/-- C3: element processing is skip-and-continue in both cited loops.  A
category whose collection raises contributes nothing to the Phases
counters and the other categories yield exactly what they yield without
it; an element whose processing raises contributes nothing to the deleted
ids of the workset loop; and the workset loop is a plain left fold, so it
never aborts, never retries, and processes the remaining items after any
prefix. -/
theorem C3_skip_and_continue (cats : List PhCategory) (es xs ys : List WElem)
    (st : WState) :
    createdOcc cats = createdOcc (cats.filter fun c => !c.raises)
  ∧ demolOcc cats = demolOcc (cats.filter fun c => !c.raises)
  ∧ (worksetRun es).deletedIds
      = (worksetRun (es.filter fun e => !wRaisesDuring e)).deletedIds
  ∧ worksetRunFrom st (xs ++ ys) = worksetRunFrom (worksetRunFrom st xs) ys := by
  refine ⟨?_, ?_, ?_, ?_⟩
  · unfold createdOcc
    exact flatMap_skip_raises createdOccOfCat createdOccOfCat_raises cats
  · unfold demolOcc
    exact flatMap_skip_raises demolOccOfCat demolOccOfCat_raises cats
  · unfold worksetRun
    rw [worksetRunFrom_deletedIds, worksetRunFrom_deletedIds]
    simp only [List.nil_append]
    congr 1
    rw [List.filter_filter]
    apply List.filter_congr
    intro a _
    cases hd : wDeleted a
    · simp [hd]
    · simp [hd, wDeleted_no_raise a hd]
  · unfold worksetRunFrom
    exact List.foldl_append worksetStep st xs ys

/-- Occurrence count of one phase-and-name key over the increments
recorded for a single element list. -/
lemma countOccAux (f : PhElement → Option Nat) (nm : String) (pid : Nat)
    (cat : String) :
    ∀ l : List PhElement,
      ((l.filterMap fun e => (f e).map fun p => (p, nm)).count (pid, cat))
        = if nm = cat then (l.filter fun e => f e == some pid).length
          else 0 := by
  intro l
  induction l with
  | nil => simp
  | cons e l ih =>
    rw [List.filterMap_cons, List.filter_cons]
    cases hf : f e with
    | none => simp [hf, ih]
    | some p =>
      simp only [Option.map_some']
      rw [List.count_cons, ih]
      by_cases hp : p = pid
      · subst hp
        by_cases hnm : nm = cat
        · subst hnm
          simp
        · simp [hnm]
      · by_cases hnm : nm = cat
        · subst hnm
          simp [hp]
        · simp [hp, hnm]

/-- Counter value contributed by one category. -/
lemma createdOccOfCat_count (c : PhCategory) (pid : Nat) (cat : String) :
    (createdOccOfCat c).count (pid, cat)
      = if c.raises then 0
        else if c.name = cat then
          (c.elements.filter fun e => e.phaseCreated == some pid).length
        else 0 := by
  unfold createdOccOfCat
  cases h : c.raises
  · simp only [h, Bool.false_eq_true, if_false]
    exact countOccAux (fun e => e.phaseCreated) c.name pid cat c.elements
  · simp [h]

/-- Counter value contributed by one category, demolition side. -/
lemma demolOccOfCat_count (c : PhCategory) (pid : Nat) (cat : String) :
    (demolOccOfCat c).count (pid, cat)
      = if c.raises then 0
        else if c.name = cat then
          (c.elements.filter fun e => e.phaseDemolished == some pid).length
        else 0 := by
  unfold demolOccOfCat
  cases h : c.raises
  · simp only [h, Bool.false_eq_true, if_false]
    exact countOccAux (fun e => e.phaseDemolished) c.name pid cat c.elements
  · simp [h]

/-- The dict lookup equals the direct element count, creation side. -/
lemma createdCount_spec (cats : List PhCategory) (pid : Nat) (cat : String) :
    createdCount cats pid cat = specCreatedCount cats pid cat := by
  unfold createdCount specCreatedCount createdOcc
  induction cats with
  | nil => simp
  | cons c cs ih =>
    rw [List.flatMap_cons, List.count_append, List.filter_cons]
    cases h : c.raises
    · simp [createdOccOfCat_count, h, ih]
    · simp [createdOccOfCat_count, h, ih]

/-- The dict lookup equals the direct element count, demolition side. -/
lemma demolCount_spec (cats : List PhCategory) (pid : Nat) (cat : String) :
    demolCount cats pid cat = specDemolCount cats pid cat := by
  unfold demolCount specDemolCount demolOcc
  induction cats with
  | nil => simp
  | cons c cs ih =>
    rw [List.flatMap_cons, List.count_append, List.filter_cons]
    cases h : c.raises
    · simp [demolOccOfCat_count, h, ih]
    · simp [demolOccOfCat_count, h, ih]

/-- Number of increments recorded under one phase for a single element
list, any category name. -/
lemma filterOccAux (f : PhElement → Option Nat) (nm : String) (pid : Nat) :
    ∀ l : List PhElement,
      ((l.filterMap fun e => (f e).map fun p => (p, nm)).filter
          fun o => o.1 == pid).length
        = (l.filter fun e => f e == some pid).length := by
  intro l
  induction l with
  | nil => simp
  | cons e l ih =>
    rw [List.filterMap_cons, List.filter_cons]
    cases hf : f e with
    | none => simp [hf, ih]
    | some p =>
      simp only [hf, Option.map_some', List.filter_cons]
      by_cases hp : p = pid <;> simp [hp, ih]

/-- Per-phase increment total contributed by one category, creation
side. -/
lemma createdOccOfCat_phase_len (c : PhCategory) (pid : Nat) :
    ((createdOccOfCat c).filter fun o => o.1 == pid).length
      = if c.raises then 0
        else (c.elements.filter fun e => e.phaseCreated == some pid).length := by
  unfold createdOccOfCat
  cases h : c.raises
  · simp only [h, Bool.false_eq_true, if_false]
    exact filterOccAux (fun e => e.phaseCreated) c.name pid c.elements
  · simp [h]

/-- Per-phase increment total contributed by one category, demolition
side. -/
lemma demolOccOfCat_phase_len (c : PhCategory) (pid : Nat) :
    ((demolOccOfCat c).filter fun o => o.1 == pid).length
      = if c.raises then 0
        else (c.elements.filter fun e =>
          e.phaseDemolished == some pid).length := by
  unfold demolOccOfCat
  cases h : c.raises
  · simp only [h, Bool.false_eq_true, if_false]
    exact filterOccAux (fun e => e.phaseDemolished) c.name pid c.elements
  · simp [h]

/-- Number of increments recorded under one phase across all categories,
creation side. -/
lemma createdOcc_phase_len (cats : List PhCategory) (pid : Nat) :
    ((createdOcc cats).filter fun o => o.1 == pid).length
      = specCreatedTotal cats pid := by
  unfold createdOcc specCreatedTotal
  induction cats with
  | nil => simp
  | cons c cs ih =>
    rw [List.flatMap_cons, List.filter_append, List.length_append,
      createdOccOfCat_phase_len, List.filter_cons]
    cases h : c.raises
    · simp [h, ih]
    · simp [h, ih]

/-- Number of increments recorded under one phase across all categories,
demolition side. -/
lemma demolOcc_phase_len (cats : List PhCategory) (pid : Nat) :
    ((demolOcc cats).filter fun o => o.1 == pid).length
      = specDemolTotal cats pid := by
  unfold demolOcc specDemolTotal
  induction cats with
  | nil => simp
  | cons c cs ih =>
    rw [List.flatMap_cons, List.filter_append, List.length_append,
      demolOccOfCat_phase_len, List.filter_cons]
    cases h : c.raises
    · simp [h, ih]
    · simp [h, ih]

/-- Sorted insertion adds one element. -/
lemma insertSorted_length (s : String) :
    ∀ l : List String, (insertSorted s l).length = l.length + 1 := by
  intro l
  induction l with
  | nil => rfl
  | cons t r ih =>
    unfold insertSorted
    split_ifs <;> simp [ih]

/-- Insertion sort preserves length. -/
lemma sortStrings_length :
    ∀ l : List String, (sortStrings l).length = l.length := by
  intro l
  induction l with
  | nil => rfl
  | cons s r ih =>
    unfold sortStrings
    rw [insertSorted_length, ih]
    simp

/-- The per-phase category list is empty exactly when the phase keys no
counter entry at all. -/
lemma phaseCategories_isEmpty (cats : List PhCategory) (pid : Nat) :
    (phaseCategories cats pid).isEmpty = true
      ↔ specCreatedTotal cats pid + specDemolTotal cats pid = 0 := by
  unfold phaseCategories
  rw [List.isEmpty_iff_length_eq_zero, sortStrings_length,
    List.length_eq_zero, List.dedup_eq_nil, List.append_eq_nil,
    List.map_eq_nil_iff, List.map_eq_nil_iff,
    ← List.length_eq_zero, ← List.length_eq_zero,
    createdOcc_phase_len, demolOcc_phase_len]
  omega

/-- C5: in every CSV row of the Phases audit, the created count is the
number of collected elements whose `PHASE_CREATED` resolves to the row
phase and whose category name is the row category, the demolished count is
the analogous `PHASE_DEMOLISHED` count, and a phase keying no counted
element yields exactly one row with both counts 0 and blank categories. -/
theorem C5_phase_rows_mirror_counts (cats : List PhCategory) (pid : Nat)
    (pname : String) :
    rowsForPhase cats pid pname
      = (if (phaseCategories cats pid).isEmpty then
          [⟨pname, "", 0, "", 0⟩]
        else (phaseCategories cats pid).map fun cat =>
          ⟨pname,
           if 0 < specCreatedCount cats pid cat then cat else "",
           specCreatedCount cats pid cat,
           if 0 < specDemolCount cats pid cat then cat else "",
           specDemolCount cats pid cat⟩)
  ∧ ((phaseCategories cats pid).isEmpty = true
      ↔ specCreatedTotal cats pid + specDemolTotal cats pid = 0) := by
  constructor
  · unfold rowsForPhase
    simp only [createdCount_spec, demolCount_spec]
  · exact phaseCategories_isEmpty cats pid

/-- The deletion-loop events contain no transaction events. -/
lemma worksetElemEvents_noTx (es : List WElem) :
    ((es.flatMap worksetElemEvents).all fun ev => !isTxEvent ev) = true := by
  rw [List.all_eq_true]
  intro ev hev
  rw [List.mem_flatMap] at hev
  obtain ⟨e, _, hev⟩ := hev
  unfold worksetElemEvents at hev
  split at hev
  · rw [List.mem_singleton] at hev
    subst hev
    rfl
  · cases hev

/-- Transaction-free events keep the open flag and allow every mutation
while a transaction is open. -/
lemma mutOpenGo_append_noTx :
    ∀ (l rest : List REv), (l.all fun ev => !isTxEvent ev) = true →
      mutOpenGo true (l ++ rest) = mutOpenGo true rest := by
  intro l
  induction l with
  | nil => intro rest _; rfl
  | cons ev l ih =>
    intro rest h
    rw [List.all_cons, Bool.and_eq_true] at h
    cases ev with
    | txStart => simp [isTxEvent] at h
    | txCommit => simp [isTxEvent] at h
    | txRollBack => simp [isTxEvent] at h
    | mutate i => simp only [List.cons_append, mutOpenGo, Bool.true_and]
                  exact ih rest h.2
    | note s => simp only [List.cons_append, mutOpenGo]
                exact ih rest h.2

/-- Transaction-free events followed by a commit discharge any pending
mutations. -/
lemma commGo_to_commit :
    ∀ (l : List REv) (p : Bool) (rest : List REv),
      (l.all fun ev => !isTxEvent ev) = true →
      commGo true p (l ++ REv.txCommit :: rest) = commGo false false rest := by
  intro l
  induction l with
  | nil => intro p rest _; rfl
  | cons ev l ih =>
    intro p rest h
    rw [List.all_cons, Bool.and_eq_true] at h
    cases ev with
    | txStart => simp [isTxEvent] at h
    | txCommit => simp [isTxEvent] at h
    | txRollBack => simp [isTxEvent] at h
    | mutate i => simp only [List.cons_append, commGo, Bool.true_and]
                  exact ih true rest h.2
    | note s => simp only [List.cons_append, commGo]
                exact ih p rest h.2

/-- The AddViews placement loop keeps every mutation inside the open
transaction, on the commit path and on the rollback path alike. -/
lemma addViewsGo_whileOpen : ∀ vs : List AVView,
    mutOpenGo true (addViewsGo vs) = true := by
  intro vs
  induction vs with
  | nil => rfl
  | cons v r ih =>
    unfold addViewsGo
    split_ifs
    · simp only [mutOpenGo]
      exact ih
    · rfl
    · simp only [mutOpenGo, Bool.true_and]
      exact ih

/-- C6 counterexample: a run of the AddViews script in which the first
view is placed and the second placement throws ends with `RollBack`, so
the placed viewport mutation is not covered by any `Commit`, refuting the
claim that every mutation sits between `Start()` and the corresponding
`Commit()`. -/
theorem C6_counterexample :
    mutationsCommitted (addViewsTrace [⟨1, true, false⟩, ⟨2, true, true⟩])
      = false
  ∧ mutationsWhileOpen (addViewsTrace [⟨1, true, false⟩, ⟨2, true, true⟩])
      = true
  ∧ addViewsTrace [⟨1, true, false⟩, ⟨2, true, true⟩]
      = [REv.txStart, REv.mutate 1, REv.txRollBack,
         REv.note "# Failed to add views to sheet"] := by
  refine ⟨?_, ?_, ?_⟩ <;> decide

/-- C6 amended: every model mutation of the embedded scripts happens while
a transaction is open, between `Start()` and the matching `Commit()` or
`RollBack()`; the workset script always commits, so its mutations all sit
between `Start()` and `Commit()`; and the read-only Phases audit never
opens a transaction at all. -/
theorem C6_transaction_bracketing (es : List WElem) (vs : List AVView)
    (cats : List PhCategory) (phs : List (Nat × String)) (path : String) :
    mutationsWhileOpen (worksetTrace es) = true
  ∧ mutationsCommitted (worksetTrace es) = true
  ∧ mutationsWhileOpen (addViewsTrace vs) = true
  ∧ ((phasesTrace cats phs path).all fun ev => !isTxEvent ev) = true := by
  refine ⟨?_, ?_, ?_, ?_⟩
  · show mutOpenGo true
      (es.flatMap worksetElemEvents
        ++ [REv.txCommit, REv.note "## Deletion Results:"]) = true
    rw [mutOpenGo_append_noTx _ _ (worksetElemEvents_noTx es)]
    rfl
  · show commGo true false
      (es.flatMap worksetElemEvents
        ++ REv.txCommit :: [REv.note "## Deletion Results:"]) = true
    rw [commGo_to_commit _ _ _ (worksetElemEvents_noTx es)]
    rfl
  · show mutOpenGo true (addViewsGo vs) = true
    exact addViewsGo_whileOpen vs
  · unfold phasesTrace
    rw [List.all_append, Bool.and_eq_true]
    constructor
    · rfl
    · rw [List.all_eq_true]
      intro ev hev
      rw [List.mem_map] at hev
      obtain ⟨p, _, rfl⟩ := hev
      rfl
